import Mathlib

/-!
Verification development for the MCP todo server repository.

The repository has four historical variants of a personal task tracker:
an in-memory prototype, a stdio MCP server with explicit password arguments
(v2), a locally-cached-credential stdio server (v3, `src/server.js` with
`src/lib/auth.js` and `src/lib/db.js`), and an HTTP/JSON-RPC serverless
variant (`src/api/mcp.js`).  The core is the identity scheme: the identity
of a user is the bcrypt hash of their secret, and returning users are
recognised by testing the secret against every distinct `userId` stored in
the task collection.

This file gives a shallow embedding of that core — the credential hasher,
the identity resolver, the local credential cache, and the task-store
operations — and proves the specified properties about it.
-/

set_option autoImplicit false

namespace Todo

/-! ## Credential hasher (`bcryptjs` as used in `src/lib/auth.js` and `src/api/mcp.js`)

`bcrypt.hash(password, 12)` draws a fresh random salt and produces an opaque
hash string embedding the cost, the salt and the digest;
`bcrypt.compare(password, hash)` recomputes the digest from the salt embedded
in the hash and compares.  We model the opaque hash string as a structure
`BHash` carrying the cost, the salt and the digest, the digest function as an
ideal collision-free one-way function (modelled by the identity on the
secret, the canonical injective choice), and the random salt source as a
collision-free stream of fresh salts (successive indices), which is the
idealisation the repository itself assumes (distinct salts on every call,
negligible digest collisions). -/

/-- An opaque bcrypt hash value: cost factor, embedded salt, digest.
In the source this is a single string `$2a$cost$saltdigest`; the structure
keeps the three components the string encodes. -/
structure BHash where
  cost : Nat
  salt : Nat
  digest : String
deriving DecidableEq, Repr

/-- The bcrypt digest of `secret` under a given cost and salt, modelled as an
ideal (collision-free) one-way function: injective in the secret for fixed
parameters.  We take the identity on the secret as the canonical injective
model. -/
def bcryptDigest (_cost _salt : Nat) (secret : String) : String :=
  secret

/-- Embedding of `hashPassword` from `src/lib/auth.js` lines 34-36 (and the inlined
`bcrypt.hash(password, 12)` of `src/api/mcp.js` line 33): hash with cost
factor 12 under the given fresh salt. -/
def hashPassword (salt : Nat) (password : String) : BHash :=
  { cost := 12, salt := salt, digest := bcryptDigest 12 salt password }

/-- Embedding of `verifyPassword` from `src/lib/auth.js` lines 38-40 (and the inlined
`bcrypt.compare` of `src/api/mcp.js` line 30): recompute the digest using the
cost and salt embedded in the stored hash and compare. -/
def verifyPassword (password : String) (h : BHash) : Bool :=
  bcryptDigest h.cost h.salt password == h.digest

/-- The bcrypt random salt source: an ideal collision-free supply of fresh
salts, modelled as a counter over salt indices. -/
structure SaltGen where
  next : Nat
deriving DecidableEq, Repr

/-- Draw one fresh salt from the supply. -/
def genSalt (g : SaltGen) : Nat × SaltGen :=
  (g.next, ⟨g.next + 1⟩)

/-- Model of `bcrypt.hash(password, 12)` with the salt drawn from the random supply:
each call consumes one fresh salt. -/
def hashPasswordR (password : String) (g : SaltGen) : BHash × SaltGen :=
  let (s, g') := genSalt g
  (hashPassword s password, g')

/-! ## Identity resolver

`resolveUserId` in `src/api/mcp.js` lines 26-34:

```js
async function resolveUserId(password) {
  if (!password) return null;
  const allHashes = await Task.distinct("userId");
  for (const hash of allHashes) {
    if (await bcrypt.compare(password, hash)) return hash;
  }
  return bcrypt.hash(password, 12);
}
```

and the identical scan in `setup_password` of `src/server.js` lines 100-133,
which additionally records whether the match branch or the mint branch was
taken (`matchedHash` null check). -/

/-- The scan loop: test the secret against each candidate hash in order,
returning the first match. -/
def scanHashes (password : String) : List BHash → Option BHash
  | [] => none
  | h :: rest =>
    if verifyPassword password h then some h else scanHashes password rest

/-- The scan loop, instrumented with the list of candidates on which
`verifyPassword` was actually called, in call order.  The loop `return`s at
the first match, so the matching candidate is the last verify call. -/
def scanLogged (password : String) : List BHash → Option BHash × List BHash
  | [] => (none, [])
  | h :: rest =>
    if verifyPassword password h then (some h, [h])
    else
      let (r, calls) := scanLogged password rest
      (r, h :: calls)

/-- Result of identity resolution: the owner identifier together with which
branch produced it (`matchedHash` found versus new hash minted, the
`matchedHash` null check of `src/server.js` lines 110-133). -/
structure ResolveResult where
  ownerIdentifier : BHash
  isNewOwner : Bool
deriving DecidableEq, Repr

/-- The identity resolution shared by `resolveUserId` (`src/api/mcp.js`
lines 28-33) and `setup_password` (`src/server.js` lines 100-133): scan the
candidate hashes for the first verifying one; if none verifies, mint a fresh
hash from the secret.  `salt` is the fresh salt the mint branch would draw. -/
def resolve (salt : Nat) (secret : String) (candidates : List BHash) : ResolveResult :=
  match scanHashes secret candidates with
  | some h => { ownerIdentifier := h, isNewOwner := false }
  | none => { ownerIdentifier := hashPassword salt secret, isNewOwner := true }

/-! ## Fallible resolution (awaited rejections propagate)

Every `await` in `resolveUserId` can reject: the `Task.distinct` store query
and each `bcrypt.compare`.  The source has no `try` around them, so a
rejection aborts the whole resolution and propagates to the caller (the
`catch` of the HTTP handler, `src/api/mcp.js` lines 256-263).  We model the
fallible calls with `Except`. -/

/-- A failure of an awaited store or hashing call (connectivity, primitive
failure).  Surfaced by the handler as a JSON-RPC internal error. -/
inductive StoreErr where
  | unavailable
deriving DecidableEq, Repr

/-- The scan loop with a fallible `bcrypt.compare`: an awaited rejection on
one candidate aborts the loop. -/
def scanE (verify : BHash → Except StoreErr Bool) :
    List BHash → Except StoreErr (Option BHash)
  | [] => .ok none
  | h :: rest => do
    let b ← verify h
    if b then pure (some h) else scanE verify rest

/-- Identity resolution when the awaited `Task.distinct("userId")` query and
the awaited per-candidate `bcrypt.compare` calls may fail: a rejection of
either aborts resolution before the mint branch can be reached. -/
def resolveE (salt : Nat) (secret : String)
    (query : Except StoreErr (List BHash))
    (verify : BHash → Except StoreErr Bool) : Except StoreErr ResolveResult := do
  let candidates ← query
  match ← scanE verify candidates with
  | some h => pure { ownerIdentifier := h, isNewOwner := false }
  | none => pure { ownerIdentifier := hashPassword salt secret, isNewOwner := true }

/-! ## Task store (`taskSchema` of `src/api/mcp.js` lines 12-23 / `src/lib/db.js`)

The MongoDB collection is modelled as a list of task documents in insertion
(natural) order; `Task.create` appends, `findOne*` operations take the first
matching document in natural order. -/

/-- The schema field `priority: { enum: ["low", "medium", "high"], default: "medium" }`. -/
inductive Priority where
  | low
  | medium
  | high
deriving DecidableEq, Repr

/-- A task document per `taskSchema`. -/
structure Task where
  userId : BHash
  title : String
  priority : Priority
  dueDate : Option String
  tags : List String
  completed : Bool
  completedAt : Option String
  createdAt : String
deriving DecidableEq, Repr

/-- Embedding of `Task.distinct("userId")`: the distinct owner identifiers present in the
collection (first occurrences kept; the spec treats the result as
order-insensitive). -/
def distinctUserIds (store : List Task) : List BHash :=
  (store.map Task.userId).dedup

/-- Whether `pat` occurs at the head of `s`. -/
def startsWithChars : List Char → List Char → Bool
  | [], _ => true
  | _ :: _, [] => false
  | a :: as, b :: bs => a == b && startsWithChars as bs

/-- Whether `pat` occurs as a contiguous run anywhere in `s`. -/
def containsChars (pat : List Char) : List Char → Bool
  | [] => pat.isEmpty
  | c :: rest => startsWithChars pat (c :: rest) || containsChars pat rest

/-- The characters of `s`, lowercased (the effect of `$options: "i"`). -/
def lowerChars (s : String) : List Char :=
  s.toList.map Char.toLower

/-- Model of `{ $regex: title, $options: "i" }` with a plain-text pattern:
case-insensitive substring match of the pattern against the stored title. -/
def titleMatch (pat title : String) : Bool :=
  containsChars (lowerChars pat) (lowerChars title)

/-- Embedding of `Task.countDocuments(query)`: the number of documents matching the query. -/
def countDocuments (q : Task → Bool) (store : List Task) : Nat :=
  (store.filter q).length

/-- The `filter` argument of `list_tasks`: `"all" | "pending" | "completed"`. -/
inductive Filter where
  | all
  | pending
  | completed
deriving DecidableEq, Repr

/-- The `list_tasks` query object (`src/api/mcp.js` lines 148-152 /
`src/server.js` lines 198-202): scope to the resolved `userId`, then
optionally constrain completion status, priority and tag membership. -/
def matchQuery (uid : BHash) (f : Filter) (pr : Option Priority)
    (tg : Option String) (t : Task) : Bool :=
  t.userId == uid
    && (match f with
        | .all => true
        | .pending => !t.completed
        | .completed => t.completed)
    && (match pr with
        | none => true
        | some p => t.priority == p)
    && (match tg with
        | none => true
        | some s => t.tags.contains s)

/-- Sort key of `.sort({ completed: 1, createdAt: -1 })`: pending before
completed, then most recent creation first (ISO timestamps compare
lexicographically). -/
def taskLE (a b : Task) : Bool :=
  if a.completed != b.completed then !a.completed
  else b.createdAt ≤ a.createdAt

/-- Insert a task into a list sorted by `taskLE`. -/
def insertTask (t : Task) : List Task → List Task
  | [] => [t]
  | u :: rest => if taskLE t u then t :: u :: rest else u :: insertTask t rest

/-- The sort `.sort({ completed: 1, createdAt: -1 })` of the store, modelled as an
insertion sort by `taskLE` (any permutation sorted by that key is a faithful
model of the Mongo sort). -/
def sortTasks : List Task → List Task
  | [] => []
  | t :: rest => insertTask t (sortTasks rest)

/-- Response of `list_tasks`: the summary counts plus the sorted matching
tasks. -/
structure ListResult where
  total : Nat
  pending : Nat
  completed : Nat
  tasks : List Task
deriving DecidableEq, Repr

/-- Embedding of `list_tasks` (`src/api/mcp.js` lines 146-160 / `src/server.js` lines
192-215): find the documents matching the scoped query, sorted; the summary
counts are the three `countDocuments` calls, each scoped to the resolved
`userId`. -/
def listTasks (uid : BHash) (f : Filter) (pr : Option Priority)
    (tg : Option String) (store : List Task) : ListResult :=
  { total := countDocuments (fun t => t.userId == uid) store
    pending := countDocuments (fun t => t.userId == uid && !t.completed) store
    completed := countDocuments (fun t => t.userId == uid && t.completed) store
    tasks := sortTasks (store.filter (matchQuery uid f pr tg)) }

/-- Embedding of `add_task` (`src/api/mcp.js` lines 140-144 / `src/server.js` lines
165-178): `Task.create({ userId, title, priority, dueDate, tags })` with the
schema defaults `completed: false`, `completedAt: null`, `createdAt: now`.
Returns the created document and the store with it appended. -/
def addTask (uid : BHash) (title : String) (prio : Priority)
    (due : Option String) (tags : List String) (now : String)
    (store : List Task) : Task × List Task :=
  let t : Task :=
    { userId := uid, title := title, priority := prio, dueDate := due,
      tags := tags, completed := false, completedAt := none, createdAt := now }
  (t, store ++ [t])

/-- The `findOneAndUpdate` filter of `complete_task`:
`{ userId, completed: false, title: { $regex: title, $options: "i" } }`. -/
def completeMatch (uid : BHash) (pat : String) (t : Task) : Bool :=
  t.userId == uid && t.completed == false && titleMatch pat t.title

/-- Embedding of `complete_task` (`src/api/mcp.js` lines 162-171 / `src/server.js` lines
227-254): `findOneAndUpdate` on the first document in natural order matching
`completeMatch`, setting `completed: true` and `completedAt: now` and leaving
every other field and every other document as they were.  Returns the updated
document (`{ new: true }`) and the updated store; `none` means the
no-pending-task error branch. -/
def completeTask (uid : BHash) (pat : String) (now : String) :
    List Task → Option Task × List Task
  | [] => (none, [])
  | t :: rest =>
    if completeMatch uid pat t then
      let t' := { t with completed := true, completedAt := some now }
      (some t', t' :: rest)
    else
      let (r, rest') := completeTask uid pat now rest
      (r, t :: rest')

/-- The `findOneAndDelete` filter of `delete_task`:
`{ userId, title: { $regex: title, $options: "i" } }` (no completion
constraint). -/
def deleteMatch (uid : BHash) (pat : String) (t : Task) : Bool :=
  t.userId == uid && titleMatch pat t.title

/-- Embedding of `delete_task` (`src/api/mcp.js` lines 173-181): `findOneAndDelete` on the
first document in natural order matching `deleteMatch`. -/
def deleteTask (uid : BHash) (pat : String) :
    List Task → Option Task × List Task
  | [] => (none, [])
  | t :: rest =>
    if deleteMatch uid pat t then (some t, rest)
    else
      let (r, rest') := deleteTask uid pat rest
      (r, t :: rest')

/-- Embedding of `clear_done` (`src/api/mcp.js` lines 183-186):
`Task.deleteMany({ userId, completed: true })`.  Returns the deleted count and
the remaining store. -/
def clearDone (uid : BHash) (store : List Task) : Nat × List Task :=
  let kept := store.filter (fun t => !(t.userId == uid && t.completed))
  (store.length - kept.length, kept)

/-! ## Serverless tool execution (`executeTool`, `src/api/mcp.js` lines 116-191)

`executeTool` destructures `password` out of the arguments, resolves the
user, returns an authentication error when resolution yields `null`
(which happens exactly for a missing or empty password), and otherwise
dispatches on the tool name.  We instrument execution with the ordered list
of store and hashing operations it performs, so that "no store access" is a
provable statement. -/

/-- One awaited store or hashing operation performed during execution. -/
inductive Effect where
  | distinctQuery
  | verifyCall (h : BHash)
  | hashCall
  | countQuery
  | findQuery
  | createDoc
  | updateDoc
  | deleteDoc
deriving DecidableEq, Repr

/-- The test `!password` of `src/api/mcp.js` line 27: true for a missing argument
(`undefined`) and for the empty string, the two falsy values a string-typed
JSON argument can take. -/
def isBlank : Option String → Bool
  | none => true
  | some s => s == ""

/-- Embedding of `resolveUserId` from `src/api/mcp.js` lines 26-34, instrumented with the
operations performed: nothing at all when the password is blank; otherwise
the `Task.distinct` query, one `bcrypt.compare` per scanned candidate, and a
`bcrypt.hash` call only on the mint branch. -/
def resolveUserIdLogged (salt : Nat) (password : Option String)
    (store : List Task) : Option BHash × List Effect :=
  if isBlank password then (none, [])
  else
    let pw := password.getD ""
    let (r, scanned) := scanLogged pw (distinctUserIds store)
    match r with
    | some h => (some h, Effect.distinctQuery :: scanned.map Effect.verifyCall)
    | none =>
        (some (hashPassword salt pw),
         Effect.distinctQuery :: scanned.map Effect.verifyCall ++ [Effect.hashCall])

/-- Arguments of a tool call after the destructuring defaults of each case
(`priority = "medium"`, `dueDate = null`, `tags = []`, `filter = "all"`)
have been applied. -/
structure ToolArgs where
  password : Option String
  title : String
  priority : Priority
  dueDate : Option String
  tags : List String
  filter : Filter
  prFilter : Option Priority
  tag : Option String
deriving DecidableEq, Repr

/-- Result value of `executeTool`, one constructor per return site. -/
inductive ToolResult where
  | authError
  | setupSummary (total pending completed : Nat) (firstTime : Bool)
  | added (t : Task)
  | listed (r : ListResult)
  | taskCompleted (t : Task)
  | noPendingTask (pat : String)
  | taskDeleted (t : Task)
  | noMatchingTask (pat : String)
  | cleared (n : Nat)
  | unknownTool (name : String)
deriving DecidableEq, Repr

/-- Embedding of `executeTool` from `src/api/mcp.js` lines 116-191: resolve the user from
the password argument; on `null` return the authentication error without
reaching the tool dispatch; otherwise dispatch on the tool name.  Returns the
result, the store after execution, and the ordered operations performed. -/
def executeTool (salt : Nat) (now : String) (name : String) (args : ToolArgs)
    (store : List Task) : ToolResult × List Task × List Effect :=
  match resolveUserIdLogged salt args.password store with
  | (none, log) => (.authError, store, log)
  | (some userId, log) =>
    match name with
    | "setup_password" =>
        let total := countDocuments (fun t => t.userId == userId) store
        let pending := countDocuments (fun t => t.userId == userId && !t.completed) store
        let completed := countDocuments (fun t => t.userId == userId && t.completed) store
        (.setupSummary total pending completed (total == 0), store,
         log ++ [Effect.countQuery, Effect.countQuery, Effect.countQuery])
    | "add_task" =>
        let (t, store') := addTask userId args.title args.priority args.dueDate args.tags now store
        (.added t, store', log ++ [Effect.createDoc])
    | "list_tasks" =>
        let r := listTasks userId args.filter args.prFilter args.tag store
        (.listed r, store,
         log ++ [Effect.findQuery, Effect.countQuery, Effect.countQuery, Effect.countQuery])
    | "complete_task" =>
        let (r, store') := completeTask userId args.title now store
        match r with
        | some t => (.taskCompleted t, store', log ++ [Effect.updateDoc])
        | none => (.noPendingTask args.title, store', log ++ [Effect.updateDoc])
    | "delete_task" =>
        let (r, store') := deleteTask userId args.title store
        match r with
        | some t => (.taskDeleted t, store', log ++ [Effect.deleteDoc])
        | none => (.noMatchingTask args.title, store', log ++ [Effect.deleteDoc])
    | "clear_done" =>
        let (n, store') := clearDone userId store
        (.cleared n, store', log ++ [Effect.deleteDoc])
    | other => (.unknownTool other, store, log)

/-! ## Local credential cache (`src/lib/auth.js` lines 15-32)

The cache is a single file `~/.mcp-todo/auth.json` holding
`{ hash, savedAt }`.  `getStoredHash` returns `null` when the file is
absent, when it fails to parse (the `catch`), or when the parsed object has
no truthy `hash` field (`data.hash || null` — in particular an empty-string
hash reads back as `null`); `saveHash` overwrites the file; `clearHash`
unlinks it.  We model the file slot as `Option CacheFile`. -/

/-- Contents of the auth file as `getStoredHash` distinguishes them: valid
JSON with a `hash` field, valid JSON without one, or unparseable bytes. -/
inductive CacheFile where
  | valid (hash : String)
  | missingField
  | corrupt
deriving DecidableEq, Repr

/-- The auth-file slot: `none` when the file does not exist. -/
def CacheState := Option CacheFile
deriving instance DecidableEq, Repr for CacheState

/-- Embedding of `getStoredHash` (`src/lib/auth.js` lines 15-21): absent file, parse
failure and missing/falsy `hash` field all read back as `null`. -/
def getStoredHash : CacheState → Option String
  | none => none
  | some .corrupt => none
  | some .missingField => none
  | some (.valid h) => if h == "" then none else some h

/-- Embedding of `saveHash` (`src/lib/auth.js` lines 23-28): overwrite the file with
`{ hash, savedAt }`. -/
def saveHash (h : String) (_s : CacheState) : CacheState :=
  some (.valid h)

/-- Embedding of `clearHash` (`src/lib/auth.js` lines 30-32): unlink the file if present;
the result is an absent file either way. -/
def clearHash (_s : CacheState) : CacheState :=
  none

/-! ## `setup_password` of the cached-credential variant (`src/server.js` lines 43-151)

Inputs: the cache slot (parsed hash value), the two prompted strings, the
store, and the fresh salt the mint branch would draw.  The flow is: if a hash
is already cached, report the summary; otherwise validate the prompted
password (`!password || password.length < 4`), check the confirmation, scan
the distinct owner identifiers, and either restore the matched hash or mint
and save a new one.  Instrumented with the store/hash operations performed. -/

/-- Result of `setup_password` in `src/server.js`, one constructor per
return site. -/
inductive SetupResult where
  | alreadySetup (total pending completed : Nat)
  | tooShort
  | mismatch
  | welcomeBack (h : BHash) (total pending : Nat)
  | accountCreated (h : BHash)
deriving DecidableEq, Repr

/-- Embedding of `setup_password` from `src/server.js` lines 43-151, over the parsed cache
value.  Returns the outcome, the cache slot afterwards, and the ordered
store/hash operations performed. -/
def setup_password (salt : Nat) (cache : Option BHash)
    (password confirm : String) (store : List Task) :
    SetupResult × Option BHash × List Effect :=
  match cache with
  | some existingHash =>
      let total := countDocuments (fun t => t.userId == existingHash) store
      let pending := countDocuments (fun t => t.userId == existingHash && !t.completed) store
      let completed := countDocuments (fun t => t.userId == existingHash && t.completed) store
      (.alreadySetup total pending completed, some existingHash,
       [Effect.countQuery, Effect.countQuery, Effect.countQuery])
  | none =>
      if password == "" || password.length < 4 then (.tooShort, none, [])
      else if password != confirm then (.mismatch, none, [])
      else
        let (r, scanned) := scanLogged password (distinctUserIds store)
        match r with
        | some matchedHash =>
            let total := countDocuments (fun t => t.userId == matchedHash) store
            let pending := countDocuments (fun t => t.userId == matchedHash && !t.completed) store
            (.welcomeBack matchedHash total pending, some matchedHash,
             Effect.distinctQuery :: scanned.map Effect.verifyCall
               ++ [Effect.countQuery, Effect.countQuery])
        | none =>
            let newHash := hashPassword salt password
            (.accountCreated newHash, some newHash,
             Effect.distinctQuery :: scanned.map Effect.verifyCall ++ [Effect.hashCall])

/-! ## Concrete fixtures used by the witness theorems -/

/-- A pending task owned by the `"abcd"` owner. -/
def taskMilk : Task :=
  { userId := hashPassword 0 "abcd", title := "Buy milk",
    priority := .medium, dueDate := none, tags := [],
    completed := false, completedAt := none, createdAt := "2024-01-01" }

/-- An already-completed task owned by the `"abcd"` owner. -/
def taskDog : Task :=
  { userId := hashPassword 0 "abcd", title := "Walk dog",
    priority := .low, dueDate := none, tags := [],
    completed := true, completedAt := some "2024-01-02",
    createdAt := "2024-01-01" }

/-- A second pending task whose title also matches the pattern `"milk"`,
owned by the same owner as `taskMilk`. -/
def taskMilkTwo : Task :=
  { userId := hashPassword 0 "abcd", title := "Buy milk again",
    priority := .medium, dueDate := none, tags := [],
    completed := false, completedAt := none, createdAt := "2024-01-03" }

/-- A task owned by a different owner. -/
def taskOther : Task :=
  { userId := hashPassword 3 "wxyz", title := "Other",
    priority := .medium, dueDate := none, tags := [],
    completed := false, completedAt := none, createdAt := "2024-01-01" }

/-- Tool arguments with a missing password. -/
def argsNoPassword : ToolArgs :=
  { password := none, title := "buy milk", priority := .medium,
    dueDate := none, tags := [], filter := .all, prFilter := none,
    tag := none }

/-! ## Helper lemmas -/

theorem verify_hashPassword_self (salt : Nat) (s : String) :
    verifyPassword s (hashPassword salt s) = true := by
  simp [verifyPassword, hashPassword, bcryptDigest]

theorem scanLogged_fst (s : String) (l : List BHash) :
    (scanLogged s l).1 = scanHashes s l := by
  induction l with
  | nil => rfl
  | cons a as ih =>
    by_cases hv : verifyPassword s a <;> simp [scanLogged, scanHashes, hv, ih]

theorem scanLogged_first_match (s : String) (pre post : List BHash) (h : BHash)
    (hm : verifyPassword s h = true)
    (hpre : ∀ x ∈ pre, verifyPassword s x = false) :
    scanLogged s (pre ++ h :: post) = (some h, pre ++ [h]) := by
  induction pre with
  | nil => simp [scanLogged, hm]
  | cons a as ih =>
    have ha : verifyPassword s a = false := hpre a (by simp)
    have ih' := ih (fun x hx => hpre x (by simp [hx]))
    simp [scanLogged, ha, ih']

theorem scanHashes_eq_none (s : String) (l : List BHash)
    (hl : ∀ x ∈ l, verifyPassword s x = false) : scanHashes s l = none := by
  induction l with
  | nil => rfl
  | cons a as ih =>
    have ha : verifyPassword s a = false := hl a (by simp)
    have ih' := ih (fun x hx => hl x (by simp [hx]))
    simp [scanHashes, ha, ih']

theorem scanE_error_propagates (verify : BHash → Except StoreErr Bool)
    (pre post : List BHash) (h : BHash) (e : StoreErr)
    (hpre : ∀ x ∈ pre, verify x = .ok false) (hv : verify h = .error e) :
    scanE verify (pre ++ h :: post) = .error e := by
  induction pre with
  | nil => simp [scanE, hv, Bind.bind, Except.bind]
  | cons a as ih =>
    have ha : verify a = .ok false := hpre a (by simp)
    have ih' := ih (fun x hx => hpre x (by simp [hx]))
    simp [scanE, ha, ih', Bind.bind, Except.bind]

theorem mem_insertTask (t u : Task) (l : List Task) :
    u ∈ insertTask t l ↔ u = t ∨ u ∈ l := by
  induction l with
  | nil => simp [insertTask]
  | cons a as ih =>
    by_cases hle : taskLE t a
    · simp [insertTask, hle]
    · simp [insertTask, hle, ih]
      tauto

theorem mem_sortTasks (u : Task) (l : List Task) :
    u ∈ sortTasks l ↔ u ∈ l := by
  induction l with
  | nil => simp [sortTasks]
  | cons a as ih => simp [sortTasks, mem_insertTask, ih]

theorem completeMatch_of_completed (uid : BHash) (pat : String) (t : Task)
    (ht : t.completed = true) : completeMatch uid pat t = false := by
  simp [completeMatch, ht]

theorem completeTask_of_no_match (uid : BHash) (pat now : String)
    (store : List Task)
    (hall : ∀ t ∈ store, completeMatch uid pat t = false) :
    completeTask uid pat now store = (none, store) := by
  induction store with
  | nil => rfl
  | cons a as ih =>
    have ha : completeMatch uid pat a = false := hall a (by simp)
    have ih' := ih (fun t ht => hall t (by simp [ht]))
    simp [completeTask, ha, ih']

theorem completeTask_preserves_completed (uid : BHash) (pat now : String)
    (store : List Task) (t : Task) (htmem : t ∈ store) (ht : t.completed = true) :
    t ∈ (completeTask uid pat now store).2 := by
  induction store with
  | nil => simp at htmem
  | cons a as ih =>
    rcases hres : completeTask uid pat now as with ⟨r, rest'⟩
    rcases List.mem_cons.mp htmem with rfl | hmem
    · simp [completeTask, completeMatch_of_completed uid pat t ht, hres]
    · have h2 : t ∈ rest' := by simpa [hres] using ih hmem
      by_cases hm : completeMatch uid pat a = true
      · simp [completeTask, hm, hmem]
      · simp [completeTask, hm, hres]
        exact Or.inr h2

/-! ## Claim theorems -/

/-- C1: for every secret `s` and every candidate list in which some element
verifies against `s` (and, per the uniqueness assumption, the candidates
before it do not), `resolve` returns exactly that element as the owner
identifier with `isNewOwner = false`, and the scan stops at the match: the
verify calls performed are precisely the non-matching candidates before it
followed by the match itself, independent of the position of the match and of how
many non-matching hashes surround it. -/
theorem resolve_returns_first_match (salt : Nat) (s : String)
    (pre post : List BHash) (h : BHash)
    (hm : verifyPassword s h = true)
    (hpre : ∀ x ∈ pre, verifyPassword s x = false) :
    resolve salt s (pre ++ h :: post) =
      { ownerIdentifier := h, isNewOwner := false } ∧
    scanLogged s (pre ++ h :: post) = (some h, pre ++ [h]) := by
  have hscan := scanLogged_first_match s pre post h hm hpre
  have hfst : scanHashes s (pre ++ h :: post) = some h := by
    rw [← scanLogged_fst, hscan]
  exact ⟨by simp [resolve, hfst], hscan⟩

/-- Witness for C1 at a concrete input: the match sits between a
non-matching hash and a further hash that is never verified. -/
theorem resolve_returns_first_match_witness :
    verifyPassword "abcd" (hashPassword 0 "abcd") = true ∧
    (∀ x ∈ [hashPassword 1 "zzzz"], verifyPassword "abcd" x = false) ∧
    (resolve 5 "abcd"
        ([hashPassword 1 "zzzz"] ++ hashPassword 0 "abcd" :: [hashPassword 2 "qqqq"]) =
      { ownerIdentifier := hashPassword 0 "abcd", isNewOwner := false } ∧
    scanLogged "abcd"
        ([hashPassword 1 "zzzz"] ++ hashPassword 0 "abcd" :: [hashPassword 2 "qqqq"]) =
      (some (hashPassword 0 "abcd"), [hashPassword 1 "zzzz"] ++ [hashPassword 0 "abcd"])) :=
  ⟨by decide, by decide,
   resolve_returns_first_match 5 "abcd" [hashPassword 1 "zzzz"] [hashPassword 2 "qqqq"]
     (hashPassword 0 "abcd") (by decide) (by decide)⟩

/-- C2: for every secret `s` and every candidate list none of whose elements
verifies against `s`, `resolve` mints a fresh hash, returns it with
`isNewOwner = true`, and the minted hash verifies against `s`; on the empty
candidate list no verify call is made at all. -/
theorem resolve_mints_new_owner (salt : Nat) (s : String)
    (candidates : List BHash)
    (hnone : ∀ x ∈ candidates, verifyPassword s x = false) :
    resolve salt s candidates =
      { ownerIdentifier := hashPassword salt s, isNewOwner := true } ∧
    verifyPassword s (hashPassword salt s) = true ∧
    scanLogged s [] = (none, []) := by
  have hscan := scanHashes_eq_none s candidates hnone
  exact ⟨by simp [resolve, hscan], verify_hashPassword_self salt s, rfl⟩

/-- Witness for C2 at a concrete input: one non-matching pre-existing owner. -/
theorem resolve_mints_new_owner_witness :
    (∀ x ∈ [hashPassword 1 "zzzz"], verifyPassword "abcd" x = false) ∧
    (resolve 7 "abcd" [hashPassword 1 "zzzz"] =
      { ownerIdentifier := hashPassword 7 "abcd", isNewOwner := true } ∧
    verifyPassword "abcd" (hashPassword 7 "abcd") = true ∧
    scanLogged "abcd" [] = (none, [])) :=
  ⟨by decide, resolve_mints_new_owner 7 "abcd" [hashPassword 1 "zzzz"] (by decide)⟩

/-- C4: if the distinct-owner query fails, or a verify call fails mid-scan
(after any run of non-matching candidates), resolution aborts with the store
error and in particular never returns a result with `isNewOwner = true`. -/
theorem resolveE_aborts_on_store_failure (salt : Nat) (s : String)
    (verify : BHash → Except StoreErr Bool) (pre post : List BHash)
    (h : BHash) (e : StoreErr)
    (hpre : ∀ x ∈ pre, verify x = .ok false) (hv : verify h = .error e) :
    resolveE salt s (.error e) verify = .error e ∧
    resolveE salt s (.ok (pre ++ h :: post)) verify = .error e ∧
    ∀ r : ResolveResult, resolveE salt s (.ok (pre ++ h :: post)) verify ≠ .ok r := by
  have hscan := scanE_error_propagates verify pre post h e hpre hv
  have h2 : resolveE salt s (.ok (pre ++ h :: post)) verify = .error e := by
    simp [resolveE, hscan, Bind.bind, Except.bind]
  exact ⟨rfl, h2, fun r hr => by simp [h2] at hr⟩

/-- Witness for C4 at a concrete input: a verify oracle that always fails. -/
theorem resolveE_aborts_on_store_failure_witness :
    (∀ x ∈ ([] : List BHash),
        (fun _ : BHash => (Except.error StoreErr.unavailable : Except StoreErr Bool)) x =
          .ok false) ∧
    (resolveE 0 "abcd" (.error .unavailable)
        (fun _ => .error .unavailable) = .error .unavailable ∧
    resolveE 0 "abcd" (.ok ([] ++ hashPassword 0 "abcd" :: []))
        (fun _ => .error .unavailable) = .error .unavailable ∧
    ∀ r : ResolveResult,
      resolveE 0 "abcd" (.ok ([] ++ hashPassword 0 "abcd" :: []))
          (fun _ => .error .unavailable) ≠ .ok r) :=
  ⟨by simp,
   resolveE_aborts_on_store_failure 0 "abcd" (fun _ => .error .unavailable)
     [] [] (hashPassword 0 "abcd") .unavailable (by simp) rfl⟩

/-- C6: two successive `hash` calls on the same secret consume two fresh
salts and therefore return two different hash values, yet the secret verifies
against both; so owner identifiers cannot be recovered by re-hashing and
comparing for equality — only by verification. -/
theorem hash_twice_differs_both_verify (s : String) (g : SaltGen) :
    (hashPasswordR s g).1 ≠ (hashPasswordR s (hashPasswordR s g).2).1 ∧
    verifyPassword s (hashPasswordR s g).1 = true ∧
    verifyPassword s (hashPasswordR s (hashPasswordR s g).2).1 = true := by
  refine ⟨?_, ?_, ?_⟩
  · intro heq
    have h2 := congrArg BHash.salt heq
    simp [hashPasswordR, genSalt, hashPassword] at h2
  · simp [hashPasswordR, genSalt, verifyPassword, hashPassword, bcryptDigest]
  · simp [hashPasswordR, genSalt, verifyPassword, hashPassword, bcryptDigest]

/-- C7: the local credential cache round-trips: after `saveHash x` a load
returns `x` (for an owner identifier, which is never the empty string);
after `clearHash` a load returns absent; and a load on a never-set cache
returns absent rather than an error. -/
theorem cache_round_trip (x : String) (s s' : CacheState) (hx : x ≠ "") :
    getStoredHash (saveHash x s) = some x ∧
    getStoredHash (clearHash s') = none ∧
    getStoredHash (none : CacheState) = none := by
  refine ⟨?_, rfl, rfl⟩
  simp [getStoredHash, saveHash, hx]

/-- Witness for C7 at a concrete input. -/
theorem cache_round_trip_witness :
    ("h1" ≠ "") ∧
    (getStoredHash (saveHash "h1" none) = some "h1" ∧
    getStoredHash (clearHash (some CacheFile.corrupt)) = none ∧
    getStoredHash (none : CacheState) = none) :=
  ⟨by decide, cache_round_trip "h1" none (some CacheFile.corrupt) (by decide)⟩

/-- C5: `list_tasks` scopes its query to the single resolved owner
identifier — every returned task belongs to that owner and the summary
counts are computed over the documents of that owner only — and therefore a task
created under a different owner identifier is invisible: adding a task under
`u1 ≠ u2` leaves the entire `list_tasks` response for `u2` unchanged. -/
theorem listTasks_scoped_and_isolated (u1 u2 : BHash) (f : Filter)
    (pr : Option Priority) (tg : Option String) (title : String)
    (prio : Priority) (due : Option String) (tags : List String)
    (now : String) (store : List Task) (hne : u1 ≠ u2) :
    (∀ t ∈ (listTasks u2 f pr tg store).tasks, t.userId = u2) ∧
    (listTasks u2 f pr tg store).total =
      countDocuments (fun t => t.userId == u2) store ∧
    listTasks u2 f pr tg (addTask u1 title prio due tags now store).2 =
      listTasks u2 f pr tg store := by
  refine ⟨?_, rfl, ?_⟩
  · intro t htm
    have hmem : t ∈ store.filter (matchQuery u2 f pr tg) :=
      (mem_sortTasks t _).mp htm
    have hq := (List.mem_filter.mp hmem).2
    simp only [matchQuery, Bool.and_eq_true, beq_iff_eq] at hq
    exact hq.1.1.1
  · have hbeq : (u1 == u2) = false := by simp [hne]
    simp [listTasks, addTask, countDocuments, List.filter_append, matchQuery, hbeq]

/-- Witness for C5 at a concrete input: two distinct minted owners, a task
added under the first, listed under the second. -/
theorem listTasks_scoped_and_isolated_witness :
    (hashPassword 0 "abcd" ≠ hashPassword 1 "wxyz") ∧
    ((∀ t ∈ (listTasks (hashPassword 1 "wxyz") .all none none []).tasks,
        t.userId = hashPassword 1 "wxyz") ∧
    (listTasks (hashPassword 1 "wxyz") .all none none []).total =
      countDocuments (fun t => t.userId == hashPassword 1 "wxyz") [] ∧
    listTasks (hashPassword 1 "wxyz") .all none none
        (addTask (hashPassword 0 "abcd") "buy milk" .medium none [] "2024-01-01" []).2 =
      listTasks (hashPassword 1 "wxyz") .all none none []) :=
  ⟨by decide,
   listTasks_scoped_and_isolated (hashPassword 0 "abcd") (hashPassword 1 "wxyz")
     .all none none "buy milk" .medium none [] "2024-01-01" [] (by decide)⟩

/-- C8: `complete_task` either finds no matching pending task and leaves the
store untouched, or updates exactly the first matching task: the store
decomposes as `pre ++ t :: post` with no match in `pre`, only `t` is replaced
(by a task equal to it in `userId`, `title`, `priority`, `dueDate`, `tags`
and `createdAt`, with `completed = true` and `completedAt = now`), and `pre`
and `post` are returned unchanged — so in particular the owning identifier of
every task is immutable under completion. -/
theorem completeTask_frame (uid : BHash) (pat now : String)
    (store : List Task) :
    completeTask uid pat now store = (none, store) ∨
    ∃ pre t post t',
      store = pre ++ t :: post ∧
      (∀ u ∈ pre, completeMatch uid pat u = false) ∧
      completeMatch uid pat t = true ∧
      completeTask uid pat now store = (some t', pre ++ t' :: post) ∧
      t'.userId = t.userId ∧ t'.title = t.title ∧ t'.priority = t.priority ∧
      t'.dueDate = t.dueDate ∧ t'.tags = t.tags ∧ t'.createdAt = t.createdAt ∧
      t'.completed = true ∧ t'.completedAt = some now := by
  induction store with
  | nil => exact Or.inl rfl
  | cons a as ih =>
    by_cases hm : completeMatch uid pat a = true
    · right
      refine ⟨[], a, as, { a with completed := true, completedAt := some now },
        rfl, by simp, hm, ?_, rfl, rfl, rfl, rfl, rfl, rfl, rfl, rfl⟩
      simp [completeTask, hm]
    · rcases ih with he | ⟨pre, t, post, t', heq, hpre, hmt, hres,
        hf1, hf2, hf3, hf4, hf5, hf6, hf7, hf8⟩
      · left
        simp [completeTask, hm, he]
      · right
        refine ⟨a :: pre, t, post, t', by simp [heq], ?_, hmt, ?_,
          hf1, hf2, hf3, hf4, hf5, hf6, hf7, hf8⟩
        · intro u hu
          rcases List.mem_cons.mp hu with rfl | hu'
          · simpa using hm
          · exact hpre u hu'
        · simp [completeTask, hm, hres]

/-- The second-call lemma behind C10: when at most one task matches the
pending filter, running `complete_task` again after a first run finds no
pending match and leaves the store exactly as the first run left it. -/
theorem completeTask_second_noop (uid : BHash) (pat n1 n2 : String)
    (store : List Task)
    (huniq : store.countP (completeMatch uid pat) ≤ 1) :
    completeTask uid pat n2 (completeTask uid pat n1 store).2 =
      (none, (completeTask uid pat n1 store).2) := by
  revert huniq
  induction store with
  | nil => intro _; rfl
  | cons a as ih =>
    intro huniq
    by_cases hm : completeMatch uid pat a = true
    · have hz : as.countP (completeMatch uid pat) = 0 := by
        rw [List.countP_cons_of_pos _ _ hm] at huniq
        omega
      have hall : ∀ t ∈ as, completeMatch uid pat t = false := by
        intro t ht
        have := List.countP_eq_zero.mp hz t ht
        simpa using this
      have hm' :
          completeMatch uid pat { a with completed := true, completedAt := some n1 } =
            false :=
        completeMatch_of_completed uid pat _ rfl
      simp [completeTask, hm, hm', completeTask_of_no_match uid pat n2 as hall]
    · have hle : as.countP (completeMatch uid pat) ≤ 1 := by
        rw [List.countP_cons_of_neg] at huniq
        · exact huniq
        · simp [hm]
      have ih' := ih hle
      rcases h1 : completeTask uid pat n1 as with ⟨r1, rest1⟩
      have hsecond : completeTask uid pat n2 rest1 = (none, rest1) := by
        have := ih'
        rw [h1] at this
        simpa using this
      simp [completeTask, hm, h1, hsecond]

/-- C10 counterexample: when two pending tasks match the same title pattern,
a second completion attempt with that title does not return the
no-pending-task error — it matches and completes the second pending task,
changing the store again.  So the second-attempt clause of the claim holds
only when at most one task matches the pending filter. -/
theorem completeTask_second_attempt_succeeds_on_duplicate :
    (completeTask (hashPassword 0 "abcd") "milk" "2024-02-02"
        (completeTask (hashPassword 0 "abcd") "milk" "2024-02-01"
          [taskMilk, taskMilkTwo]).2).1 =
      some { taskMilkTwo with completed := true, completedAt := some "2024-02-02" } := by
  decide

/-- C10 (amended): the `complete_task` filter matches only pending tasks, so
on every store a task that is already completed is never matched — it
survives the call with all its fields (in particular its `completedAt`
timestamp) intact — and, when at most one task matches the pending filter, a
second completion attempt with the same title finds no pending match (the
no-pending-task error branch) and leaves the store unchanged. -/
theorem completeTask_only_pending (uid : BHash) (pat n1 n2 : String)
    (store : List Task) :
    (∀ t ∈ store, t.completed = true →
      completeMatch uid pat t = false ∧
      t ∈ (completeTask uid pat n1 store).2) ∧
    (store.countP (completeMatch uid pat) ≤ 1 →
      completeTask uid pat n2 (completeTask uid pat n1 store).2 =
        (none, (completeTask uid pat n1 store).2)) :=
  ⟨fun t ht hc =>
    ⟨completeMatch_of_completed uid pat t hc,
     completeTask_preserves_completed uid pat n1 store t ht hc⟩,
   fun huniq => completeTask_second_noop uid pat n1 n2 store huniq⟩

/-- Witness for C10 at a concrete input: one pending matching task and one
already-completed task under the same owner. -/
theorem completeTask_only_pending_witness :
    (∀ t ∈ [taskMilk, taskDog], t.completed = true →
      completeMatch (hashPassword 0 "abcd") "milk" t = false ∧
      t ∈ (completeTask (hashPassword 0 "abcd") "milk" "2024-02-01"
            [taskMilk, taskDog]).2) ∧
    [taskMilk, taskDog].countP (completeMatch (hashPassword 0 "abcd") "milk") ≤ 1 ∧
    completeTask (hashPassword 0 "abcd") "milk" "2024-02-02"
        (completeTask (hashPassword 0 "abcd") "milk" "2024-02-01"
          [taskMilk, taskDog]).2 =
      (none, (completeTask (hashPassword 0 "abcd") "milk" "2024-02-01"
          [taskMilk, taskDog]).2) :=
  ⟨(completeTask_only_pending (hashPassword 0 "abcd") "milk" "2024-02-01" "2024-02-02"
      [taskMilk, taskDog]).1,
   by decide,
   (completeTask_only_pending (hashPassword 0 "abcd") "milk" "2024-02-01" "2024-02-02"
      [taskMilk, taskDog]).2 (by decide)⟩

/-- C9: in the serverless variant, a missing or empty password argument makes
`resolveUserId` return `null` before the distinct-owner query, so
`executeTool` returns the authentication error for every tool name, the
store is untouched, and no operation — in particular no hash minting — is
performed. -/
theorem executeTool_blank_password (salt : Nat) (now name : String)
    (args : ToolArgs) (store : List Task)
    (h : isBlank args.password = true) :
    executeTool salt now name args store = (.authError, store, []) ∧
    resolveUserIdLogged salt args.password store = (none, []) := by
  have hr : resolveUserIdLogged salt args.password store = (none, []) := by
    simp [resolveUserIdLogged, h]
  exact ⟨by simp [executeTool, hr], hr⟩

/-- Witness for C9 at a concrete input: `add_task` with a missing password on
a non-empty store. -/
theorem executeTool_blank_password_witness :
    isBlank argsNoPassword.password = true ∧
    (executeTool 0 "2024-01-01" "add_task" argsNoPassword [taskOther] =
      (.authError, [taskOther], []) ∧
    resolveUserIdLogged 0 argsNoPassword.password [taskOther] = (none, [])) :=
  ⟨by decide,
   executeTool_blank_password 0 "2024-01-01" "add_task" argsNoPassword [taskOther]
     (by decide)⟩

/-- C3 counterexample: the serverless resolver (`resolveUserId` in
`src/api/mcp.js`) enforces no minimum length — the two-character secret
`"xy"` is not rejected: the distinct-owner store query runs, a new owner
identifier is minted for it, and a hash call is performed. -/
theorem resolveUserId_accepts_short_secret :
    "xy".length < 4 ∧
    resolveUserIdLogged 0 (some "xy") [] =
      (some (hashPassword 0 "xy"), [Effect.distinctQuery, Effect.hashCall]) :=
  ⟨by decide, by decide⟩

/-- C3 (amended): in the cached-credential stdio variant
(`setup_password` in `src/server.js`), when no hash is cached yet, a secret
shorter than the minimum of 4 characters fails with the distinct too-short
validation response before any store access (no distinct-owner query, no
count query) and before any hashing, and no owner identifier is minted or
saved.  (The serverless variant rejects only empty secrets; see the
counterexample.) -/
theorem setup_password_rejects_short_secret (salt : Nat)
    (password confirm : String) (store : List Task)
    (hlen : password.length < 4) :
    setup_password salt none password confirm store = (.tooShort, none, []) := by
  simp [setup_password, hlen]

/-- Witness for the amended C3 at the concrete secret `"xy"`. -/
theorem setup_password_rejects_short_secret_witness :
    "xy".length < 4 ∧
    setup_password 0 none "xy" "xy" [] = (.tooShort, none, []) :=
  ⟨by decide, setup_password_rejects_short_secret 0 "xy" "xy" [] (by decide)⟩

end Todo
